import Mathlib

/-!
Shallow embedding of the FPL analysis pipeline (src/analysis.js and its data
model). JS numbers are modelled as rationals, nullable fields as Option,
JS object maps as association lists, and a thrown TypeError as Except.error.
JS Array.sort is modelled as a stable sort (insertion sort). Number.toFixed
followed by parseFloat is modelled as rounding to the printed precision.
-/

/-- JS division `a / b`: the result is undefined (NaN or Infinity) when the
denominator is zero, modelled as none. -/
def jsDiv (a b : Rat) : Option Rat := if b = 0 then none else some (a / b)

/-- `x.toFixed(2)` re-read with parseFloat: round to two decimals,
ties away from zero (as toFixed does). -/
def toFixed2 (q : Rat) : Rat :=
  if q < 0 then -((⌊(-q) * 100 + 1/2⌋ : Int) : Rat) / 100
  else ((⌊q * 100 + 1/2⌋ : Int) : Rat) / 100

/-- `x.toFixed(1)` re-read as a number: round to one decimal,
ties away from zero. -/
def toFixed1 (q : Rat) : Rat :=
  if q < 0 then -((⌊(-q) * 10 + 1/2⌋ : Int) : Rat) / 10
  else ((⌊q * 10 + 1/2⌋ : Int) : Rat) / 10

/-- Lookup in a JS object modelled as an association list (first match). -/
def lookupA {α : Type} (k : Nat) : List (Nat × α) → Option α
  | [] => none
  | p :: rest => if p.1 = k then some p.2 else lookupA k rest

/-- In-place field mutation of the value at key `k` of a JS object:
identity when the key is absent. -/
def updateA {α : Type} (k : Nat) (f : α → α) : List (Nat × α) → List (Nat × α)
  | [] => []
  | p :: rest => if p.1 = k then (p.1, f p.2) :: rest else p :: updateA k f rest

/-- Short-circuiting map over a list, propagating the first thrown error:
models Array.prototype.map / forEach with an exception escaping the loop. -/
def mapExcept {α β : Type} (f : α → Except String β) : List α → Except String (List β)
  | [] => Except.ok []
  | x :: xs =>
    match f x with
    | Except.error e => Except.error e
    | Except.ok y =>
      match mapExcept f xs with
      | Except.error e => Except.error e
      | Except.ok ys => Except.ok (y :: ys)

/-- A bootstrap `elements` entry (the fields the analysis reads).
`form` and `selected_by_percent` arrive as strings and are always read through
parseFloat, so they are modelled directly as rationals. -/
structure PlayerElem where
  id : Nat
  first_name : String
  second_name : String
  web_name : String
  element_type : Nat
  team : Nat
  status : String
  minutes : Nat
  form : Rat
  total_points : Int
  now_cost : Rat
  selected_by_percent : Rat
  goals_scored : Nat
  assists : Nat
  clean_sheets : Nat
deriving Repr, DecidableEq

/-- A bootstrap `teams` entry. -/
structure TeamElem where
  id : Nat
  name : String
deriving Repr, DecidableEq

/-- A fixtures-endpoint entry. `event` is null until the fixture is scheduled.
`kickoff_time` is the epoch timestamp of the kickoff (new Date(null) is 0). -/
structure Fixture where
  event : Option Nat
  team_h : Nat
  team_a : Nat
  finished : Bool
  started : Bool
  kickoff_time : Nat
  team_h_difficulty : Nat
  team_a_difficulty : Nat
deriving Repr, DecidableEq

/-- A per-player gameweek history entry (element-summary `history`).
`opponent_team` 0 models a null/absent opponent id (JS falsy). -/
structure GwRecord where
  round : Nat
  opponent_team : Nat
  minutes : Nat
  total_points : Int
deriving Repr, DecidableEq

/-- FPLAnalyzer.isRegularStarter. -/
def isRegularStarter (p : PlayerElem) : Bool :=
  if p.minutes < 450 then false
  else
    let estimatedGamesPlayed : Int := max 1 ⌈((p.minutes : Rat) / 90)⌉
    let avgMinutesPerGame : Rat := (p.minutes : Rat) / (estimatedGamesPlayed : Rat)
    let hasRecentPlayingTime : Bool := decide (p.form ≠ 0) || decide (p.minutes ≥ 1800)
    decide (avgMinutesPerGame ≥ 60) && hasRecentPlayingTime

/-- One entry of FPLAnalyzer.analyzeTeamPerformance's teamStats table.
`averagePoints` is none when the JS computation produces NaN. -/
structure TeamStat where
  name : String
  totalPoints : Int
  playerCount : Nat
  averagePoints : Option Rat
  totalGoals : Nat
  totalAssists : Nat
  cleanSheets : Nat
deriving Repr, DecidableEq

/-- analyzeTeamPerformance: the initialization loop over bootstrap teams. -/
def initTeamStats (teams : List TeamElem) : List (Nat × TeamStat) :=
  teams.map (fun t => (t.id, ⟨t.name, 0, 0, some 0, 0, 0, 0⟩))

/-- analyzeTeamPerformance: the aggregation loop over players
(guarded by `if (teamStats[teamId])`). -/
def aggregatePlayers (stats : List (Nat × TeamStat)) (players : List PlayerElem) :
    List (Nat × TeamStat) :=
  players.foldl
    (fun acc p =>
      updateA p.team
        (fun ts =>
          ⟨ts.name, ts.totalPoints + p.total_points, ts.playerCount + 1, ts.averagePoints,
           ts.totalGoals + p.goals_scored, ts.totalAssists + p.assists,
           ts.cleanSheets + p.clean_sheets⟩)
        acc)
    stats

/-- analyzeTeamPerformance: the averages loop,
`(team.totalPoints / team.playerCount).toFixed(1)` with no zero guard. -/
def computeAverages (stats : List (Nat × TeamStat)) : List (Nat × TeamStat) :=
  stats.map (fun kv =>
    (kv.1,
     ⟨kv.2.name, kv.2.totalPoints, kv.2.playerCount,
      (jsDiv (kv.2.totalPoints : Rat) (kv.2.playerCount : Rat)).map toFixed1,
      kv.2.totalGoals, kv.2.totalAssists, kv.2.cleanSheets⟩))

/-- FPLAnalyzer.analyzeTeamPerformance: init, aggregate, average,
then sort Object.values descending by totalPoints. -/
def analyzeTeamPerformance (teams : List TeamElem) (players : List PlayerElem) :
    List TeamStat :=
  let stats := computeAverages (aggregatePlayers (initTeamStats teams) players)
  (stats.map Prod.snd).insertionSort (fun a b => b.totalPoints ≤ a.totalPoints)

/-- One cell of TeamDefenseAnalyzer.teamDefenseStats. -/
structure DefCell where
  name : String
  pointsAllowed : Int
  games : Nat
deriving Repr, DecidableEq

/-- One position's map of TeamDefenseAnalyzer.teamDefenseStats (teamId to cell). -/
abbrev TeamMapD := List (Nat × DefCell)

/-- TeamDefenseAnalyzer.teamDefenseStats: positionId to per-team map. -/
abbrev DefStats := List (Nat × TeamMapD)

/-- TeamDefenseAnalyzer.initialize: one zero cell per position per bootstrap team. -/
def initDefStats (teams : List TeamElem) : DefStats :=
  [(1, teams.map (fun t => (t.id, ⟨t.name, 0, 0⟩))),
   (2, teams.map (fun t => (t.id, ⟨t.name, 0, 0⟩))),
   (3, teams.map (fun t => (t.id, ⟨t.name, 0, 0⟩))),
   (4, teams.map (fun t => (t.id, ⟨t.name, 0, 0⟩)))]

/-- The cell of `stats` at (positionId, teamId). -/
def cellAt (stats : DefStats) (pos tid : Nat) : Option DefCell :=
  (lookupA pos stats).bind (lookupA tid)

/-- The body of the forEach in TeamDefenseAnalyzer.processPlayerData, for one
gameweek record. JS evaluates `minutes > 0 && opponentTeamId && stats[pos][opp]`
left to right; when the position row is missing, reading `undefined[opp]`
throws a TypeError. -/
def recordStep (playerPosition : Nat) (stats : DefStats) (gw : GwRecord) :
    Except String DefStats :=
  if gw.minutes > 0 then
    if gw.opponent_team ≠ 0 then
      match lookupA playerPosition stats with
      | none => Except.error "TypeError"
      | some row =>
        match lookupA gw.opponent_team row with
        | none => Except.ok stats
        | some _ =>
          Except.ok
            (updateA playerPosition
              (updateA gw.opponent_team
                (fun c => ⟨c.name, c.pointsAllowed + gw.total_points, c.games + 1⟩))
              stats)
    else Except.ok stats
  else Except.ok stats

/-- The forEach over a player's gameweek history, an exception escaping it. -/
def processHistory (pos : Nat) (stats : DefStats) : List GwRecord → Except String DefStats
  | [] => Except.ok stats
  | gw :: rest =>
    match recordStep pos stats gw with
    | Except.error e => Except.error e
    | Except.ok s => processHistory pos s rest

/-- TeamDefenseAnalyzer.processPlayerData: find the player, then walk their
history when present and nonempty. -/
def processPlayerData (allPlayers : List PlayerElem) (playerId : Nat)
    (history : Option (List GwRecord)) (stats : DefStats) : Except String DefStats :=
  match allPlayers.find? (fun p => p.id == playerId) with
  | none => Except.ok stats
  | some playerInfo =>
    match history with
    | none => Except.ok stats
    | some h =>
      if h.length > 0 then processHistory playerInfo.element_type stats h
      else Except.ok stats

/-- One entry of TeamDefenseAnalyzer.calculateResults' ranked output.
`avgPointsAllowedPerGame` carries `(pointsAllowed / games).toFixed(2)`. -/
structure RankedTeam where
  name : String
  totalPointsAllowed : Int
  gamesPlayed : Nat
  avgPointsAllowedPerGame : Rat
deriving Repr, DecidableEq

/-- calculateResults for one position: keep teams with games > 0, compute the
two-decimal average, sort descending by total points allowed. -/
def rankPosition (row : TeamMapD) : List RankedTeam :=
  (((row.map Prod.snd).filter (fun c => decide (c.games > 0))).map
      (fun c =>
        ⟨c.name, c.pointsAllowed, c.games,
         toFixed2 ((c.pointsAllowed : Rat) / (c.games : Rat))⟩)).insertionSort
    (fun a b => b.totalPointsAllowed ≤ a.totalPointsAllowed)

/-- TeamDefenseAnalyzer.calculateResults' output object. -/
structure DefenseResults where
  goalkeepers : List RankedTeam
  defenders : List RankedTeam
  midfielders : List RankedTeam
  forwards : List RankedTeam
deriving Repr, DecidableEq

/-- TeamDefenseAnalyzer.calculateResults over the four position rows. -/
def calculateResults (stats : DefStats) : DefenseResults :=
  ⟨rankPosition ((lookupA 1 stats).getD []),
   rankPosition ((lookupA 2 stats).getD []),
   rankPosition ((lookupA 3 stats).getD []),
   rankPosition ((lookupA 4 stats).getD [])⟩

/-- `positionMap[position]` then `defenseResults[...]`: none for an unknown
position id, on which the subsequent `.find` throws. -/
def positionList (dr : DefenseResults) (position : Nat) : Option (List RankedTeam) :=
  match position with
  | 1 => some dr.goalkeepers
  | 2 => some dr.defenders
  | 3 => some dr.midfielders
  | 4 => some dr.forwards
  | _ => none

/-- The clamp on line 651: `Math.min(10, Math.max(0, avgPoints * 2.5))`. -/
def vulnFormula (avgPoints : Rat) : Rat :=
  min 10 (max 0 (avgPoints * (5/2)))

/-- The predicate of the `.find` in getVulnerabilityScore: the ranked entry
whose name resolves, through the bootstrap teams, to the requested team id. -/
def teamEntryMatches (teams : List TeamElem) (teamId : Nat) (team : RankedTeam) : Bool :=
  match teams.find? (fun t => t.name == team.name) with
  | some bootstrapTeam => bootstrapTeam.id == teamId
  | none => false

/-- PlayerFixtureAnalyzer.getVulnerabilityScore. -/
def getVulnerabilityScore (dr : DefenseResults) (teams : List TeamElem)
    (teamId : Nat) (position : Nat) : Except String Rat :=
  match positionList dr position with
  | none => Except.error "TypeError"
  | some positionData =>
    match positionData.find? (teamEntryMatches teams teamId) with
    | none => Except.ok 0
    | some teamData => Except.ok (vulnFormula teamData.avgPointsAllowedPerGame)

/-- `Math.max(...fixtures.map(f => f.event || 0))` (valid for a nonempty
fixtures list, where it equals the JS spread maximum). -/
def maxObservedGameweek (fixtures : List Fixture) : Nat :=
  (fixtures.map (fun f => f.event.getD 0)).foldl max 0

/-- PlayerFixtureAnalyzer.getCurrentGameweek: the event of the kickoff-earliest
fixture that is neither finished nor started, else min(38, max observed + 1).
A null event of the selected fixture coerces to 0 in all later arithmetic. -/
def getCurrentGameweek (fixtures : List Fixture) : Nat :=
  let upcoming :=
    (fixtures.filter (fun f => f.finished == false && f.started == false)).insertionSort
      (fun a b => a.kickoff_time ≤ b.kickoff_time)
  match upcoming with
  | f :: _ => f.event.getD 0
  | [] => min 38 (maxObservedGameweek fixtures + 1)

/-- One entry produced by getPlayerUpcomingFixtures' map. -/
structure FixtureEntry where
  gameweek : Option Nat
  opponent : String
  opponentId : Nat
  isHome : Bool
  difficulty : Nat
  vulnerabilityScore : Rat
deriving Repr, DecidableEq

/-- The body of the map in getPlayerUpcomingFixtures, for one fixture;
the getVulnerabilityScore call can throw for an invalid position id. -/
def fixtureStep (dr : DefenseResults) (teams : List TeamElem) (player : PlayerElem)
    (fixture : Fixture) : Except String FixtureEntry :=
  let isHome : Bool := fixture.team_h == player.team
  let opponentId : Nat := if isHome then fixture.team_a else fixture.team_h
  match getVulnerabilityScore dr teams opponentId player.element_type with
  | Except.error e => Except.error e
  | Except.ok v =>
    Except.ok
      ⟨fixture.event,
       (match teams.find? (fun t => t.id == opponentId) with
        | some opponent => opponent.name
        | none => "Unknown"),
       opponentId, isHome,
       (if isHome then fixture.team_h_difficulty else fixture.team_a_difficulty), v⟩

/-- The filter predicate of getPlayerUpcomingFixtures:
gameweek in the target window, the player's team on either side, not finished. -/
def fixtureQualifies (targetGameweeks : List Nat) (team : Nat) (fixture : Fixture) : Bool :=
  (match fixture.event with
   | some e => targetGameweeks.contains e
   | none => false)
  && (fixture.team_a == team || fixture.team_h == team)
  && !fixture.finished

/-- PlayerFixtureAnalyzer.getPlayerUpcomingFixtures. -/
def getPlayerUpcomingFixtures (dr : DefenseResults) (teams : List TeamElem)
    (fixtures : List Fixture) (allPlayers : List PlayerElem)
    (playerId : Nat) (gameweeksAhead : Nat) : Except String (List FixtureEntry) :=
  match allPlayers.find? (fun p => p.id == playerId) with
  | none => Except.ok []
  | some player =>
    let currentGameweek := getCurrentGameweek fixtures
    let targetGameweeks := (List.range gameweeksAhead).map (fun i => currentGameweek + i)
    match mapExcept (fixtureStep dr teams player)
        (fixtures.filter (fixtureQualifies targetGameweeks player.team)) with
    | Except.error e => Except.error e
    | Except.ok entries =>
      Except.ok (entries.insertionSort (fun a b => a.gameweek.getD 0 ≤ b.gameweek.getD 0))

/-- PlayerFixtureAnalyzer.getPositionName. -/
def getPositionName (elementType : Nat) : String :=
  match elementType with
  | 1 => "Goalkeeper"
  | 2 => "Defender"
  | 3 => "Midfielder"
  | 4 => "Forward"
  | _ => "Unknown"

/-- One entry of analyzeTimeHorizon's playerAnalysis list. The two score
fields carry the toFixed(2) values the comparator later re-parses. -/
structure PlayerAnalysis where
  id : Nat
  name : String
  webName : String
  team : String
  position : String
  positionId : Nat
  cost : Rat
  totalPoints : Int
  form : Rat
  fixturesCount : Nat
  totalVulnerabilityScore : Rat
  avgVulnerabilityScore : Rat
  fixtures : List FixtureEntry
  selectedBy : Rat
deriving Repr, DecidableEq

/-- The body of the map in analyzeTimeHorizon: summarize a player's
qualifying fixtures (average guarded by `fixtures.length > 0 ? ... : 0`). -/
def mkAnalysisEntry (teams : List TeamElem) (p : PlayerElem)
    (fixtures : List FixtureEntry) : PlayerAnalysis :=
  let totalVulnerability : Rat := fixtures.foldl (fun sum f => sum + f.vulnerabilityScore) 0
  let avgVulnerability : Rat :=
    if fixtures.length > 0 then totalVulnerability / (fixtures.length : Rat) else 0
  ⟨p.id, p.first_name ++ " " ++ p.second_name, p.web_name,
   (match teams.find? (fun t => t.id == p.team) with
    | some t => t.name
    | none => "Unknown"),
   getPositionName p.element_type, p.element_type, p.now_cost / 10, p.total_points,
   p.form, fixtures.length, toFixed2 totalVulnerability, toFixed2 avgVulnerability,
   fixtures, p.selected_by_percent⟩

/-- The two-tier sort callback on lines 765-772: by total vulnerability score
descending, falling back to form descending when the totals are within 0.5.
A negative result puts `a` before `b`. -/
def recCompare (a b : PlayerAnalysis) : Rat :=
  let scoreDiff := b.totalVulnerabilityScore - a.totalVulnerabilityScore
  if 1/2 < |scoreDiff| then scoreDiff else b.form - a.form

/-- The per-position sort of analyzeTimeHorizon, as a stable sort under the
comparator (an element sorts no later than another when the callback is ≤ 0). -/
def sortRecs (l : List PlayerAnalysis) : List PlayerAnalysis :=
  l.insertionSort (fun a b => recCompare a b ≤ 0)

/-- analyzeTimeHorizon's output object, one ranked list per position. -/
structure Positions where
  goalkeeper : List PlayerAnalysis
  defender : List PlayerAnalysis
  midfielder : List PlayerAnalysis
  forward : List PlayerAnalysis
deriving Repr, DecidableEq

/-- PlayerFixtureAnalyzer.analyzeTimeHorizon: eligibility filter, per-player
fixture summary, drop players without fixtures, group by position and sort. -/
def analyzeTimeHorizon (dr : DefenseResults) (teams : List TeamElem)
    (fixtures : List Fixture) (allPlayers : List PlayerElem)
    (gameweeksAhead : Nat) : Except String Positions :=
  match mapExcept
      (fun p =>
        match getPlayerUpcomingFixtures dr teams fixtures allPlayers p.id gameweeksAhead with
        | Except.error e => Except.error e
        | Except.ok fx => Except.ok (mkAnalysisEntry teams p fx))
      (allPlayers.filter (fun p => p.status == "a" && decide (p.minutes > 200))) with
  | Except.error e => Except.error e
  | Except.ok analyzed =>
    let playerAnalysis := analyzed.filter (fun e => decide (e.fixturesCount > 0))
    Except.ok
      ⟨sortRecs (playerAnalysis.filter (fun p => p.positionId == 1)),
       sortRecs (playerAnalysis.filter (fun p => p.positionId == 2)),
       sortRecs (playerAnalysis.filter (fun p => p.positionId == 3)),
       sortRecs (playerAnalysis.filter (fun p => p.positionId == 4))⟩

/-- The value of a succeeded computation, with a default for the error case. -/
def okD {α : Type} (x : Except String α) (d : α) : α :=
  match x with
  | Except.ok v => v
  | Except.error _ => d

/-! ### Concrete instances used by witnesses and counterexamples -/

/-- A recommendation entry with total vulnerability 1 and form 0. -/
def pRecA : PlayerAnalysis := ⟨1, "A A", "A", "T1", "Forward", 4, 5, 10, 0, 1, 1, 1, [], 1⟩

/-- A recommendation entry with total vulnerability 3/5 and form 5. -/
def pRecB : PlayerAnalysis := ⟨2, "B B", "B", "T2", "Forward", 4, 5, 10, 5, 1, 3/5, 3/5, [], 1⟩

/-- A recommendation entry with total vulnerability 1/5 and form 10. -/
def pRecC : PlayerAnalysis := ⟨3, "C C", "C", "T3", "Forward", 4, 5, 10, 10, 1, 1/5, 1/5, [], 1⟩

/-- A single bootstrap team, TeamX with id 7. -/
def teamsW : List TeamElem := [⟨7, "TeamX"⟩]

/-- A synthetic forward (element_type 4) on team 3 with 450 minutes. -/
def fwdW : PlayerElem := ⟨1, "Syn", "Thetic", "Syn", 4, 3, "a", 450, 1, 8, 50, 1, 0, 0, 0⟩

/-- One gameweek record: 90 minutes against TeamX (id 7), 8 points. -/
def histW : List GwRecord := [⟨1, 7, 90, 8⟩]

/-- A defense-results table whose forwards list ranks only TeamX,
8 points over 1 game. -/
def drW : DefenseResults := ⟨[], [], [], [⟨"TeamX", 8, 1, 8⟩]⟩

/-- A fixture list where every fixture is finished or started,
with maximal observed gameweek 38. -/
def fixturesAllDone : List Fixture :=
  [⟨some 38, 1, 2, true, true, 100, 3, 3⟩, ⟨some 37, 2, 1, true, true, 90, 3, 3⟩]

/-- An unstarted, unfinished fixture in gameweek 5 with the earliest kickoff. -/
def fixtureOpen : Fixture := ⟨some 5, 1, 2, false, false, 50, 3, 3⟩

/-- A fixture list with one open fixture and one finished one. -/
def fixturesOpen : List Fixture := [⟨some 4, 1, 2, true, true, 10, 2, 2⟩, fixtureOpen]

/-- The defense table after the synthetic forward's record: 8 points and
1 game in the (forwards, TeamX) cell, all other cells untouched. -/
def statsW1 : DefStats :=
  [(1, [(7, ⟨"TeamX", 0, 0⟩)]), (2, [(7, ⟨"TeamX", 0, 0⟩)]),
   (3, [(7, ⟨"TeamX", 0, 0⟩)]), (4, [(7, ⟨"TeamX", 8, 1⟩)])]

/-- A one-element upcoming-fixture list. -/
def fxW : List FixtureEntry := [⟨some 5, "TeamX", 7, true, 3, 10⟩]

/-- A one-cell defense row: TeamX conceded 8 points over 1 game. -/
def rowW : TeamMapD := [(7, ⟨"TeamX", 8, 1⟩)]

/-- The ranked entry arising from rowW. -/
def rtW : RankedTeam := ⟨"TeamX", 8, 1, 8⟩

/-- An available forward on team 1 with 900 minutes, id 2. -/
def playerW : PlayerElem := ⟨2, "M", "W", "MW", 4, 1, "a", 900, 2, 50, 60, 1, 0, 0, 0⟩

/-! ### Helper lemmas -/

theorem lookupA_updateA_self {α : Type} (k : Nat) (f : α → α) (l : List (Nat × α)) :
    lookupA k (updateA k f l) = (lookupA k l).map f := by
  induction l with
  | nil => rfl
  | cons p rest ih =>
    by_cases h : p.1 = k
    · simp [lookupA, updateA, h]
    · simp [lookupA, updateA, h, ih]

theorem lookupA_updateA_ne {α : Type} {k k2 : Nat} (h : k2 ≠ k) (f : α → α)
    (l : List (Nat × α)) : lookupA k2 (updateA k f l) = lookupA k2 l := by
  induction l with
  | nil => rfl
  | cons p rest ih =>
    by_cases hp : p.1 = k
    · have h1 : updateA k f (p :: rest) = (p.1, f p.2) :: rest := by
        simp [updateA, hp]
      rw [h1]
      have hne : ¬ p.1 = k2 := by rw [hp]; exact fun hh => h hh.symm
      simp [lookupA, hne]
    · have h1 : updateA k f (p :: rest) = p :: updateA k f rest := by
        simp [updateA, hp]
      rw [h1]
      by_cases hq : p.1 = k2
      · simp [lookupA, hq]
      · simp [lookupA, hq, ih]

theorem lookupA_mem {α : Type} {k : Nat} {v : α} :
    ∀ {l : List (Nat × α)}, lookupA k l = some v → (k, v) ∈ l := by
  intro l
  induction l with
  | nil => intro h; simp [lookupA] at h
  | cons p rest ih =>
    intro h
    by_cases hp : p.1 = k
    · simp [lookupA, hp] at h
      have hpv : (k, v) = p := by rw [← hp, ← h]
      rw [hpv]
      exact List.mem_cons_self p rest
    · simp [lookupA, hp] at h
      exact List.mem_cons_of_mem p (ih h)

theorem mem_lookupA {α : Type} {l : List (Nat × α)} (hnd : (l.map Prod.fst).Nodup)
    {k : Nat} {v : α} (h : (k, v) ∈ l) : lookupA k l = some v := by
  induction l with
  | nil => simp at h
  | cons p rest ih =>
    simp only [List.map_cons, List.nodup_cons] at hnd
    rcases List.mem_cons.mp h with h1 | h1
    · rw [← h1]; simp [lookupA]
    · have hne : ¬ p.1 = k := by
        intro hk
        exact hnd.1 (hk ▸ (List.mem_map.mpr ⟨(k, v), h1, rfl⟩))
      simp [lookupA, hne]
      exact ih hnd.2 h1

theorem mapExcept_ok_of_forall {α β : Type} {f : α → Except String β} {g : α → β} :
    ∀ {l : List α}, (∀ x ∈ l, f x = Except.ok (g x)) →
      mapExcept f l = Except.ok (l.map g) := by
  intro l
  induction l with
  | nil => intro _; rfl
  | cons x xs ih =>
    intro h
    have hx := h x (List.mem_cons_self x xs)
    have hxs := ih (fun y hy => h y (List.mem_cons_of_mem x hy))
    simp [mapExcept, hx, hxs]

/-- For minutes at least 450, the estimated average minutes per game
computed by isRegularStarter is at least 60. -/
theorem avgMinutes_ge_sixty (p : PlayerElem) (hm : 450 ≤ p.minutes) :
    (60 : Rat) ≤ (p.minutes : Rat) / ((max 1 ⌈((p.minutes : Rat) / 90)⌉ : Int) : Rat) := by
  have hm2 : (450 : Rat) ≤ (p.minutes : Rat) := by exact_mod_cast hm
  have hceil : (4 : Int) < ⌈(p.minutes : Rat) / 90⌉ := by
    rw [Int.lt_ceil]
    push_cast
    linarith
  have hc1 : (1 : Int) ≤ ⌈(p.minutes : Rat) / 90⌉ := by omega
  rw [max_eq_right hc1]
  have hcpos : (0 : Rat) < ((⌈(p.minutes : Rat) / 90⌉ : Int) : Rat) := by
    exact_mod_cast (by omega : (0 : Int) < ⌈(p.minutes : Rat) / 90⌉)
  rw [le_div_iff₀ hcpos]
  have hlt : ((⌈(p.minutes : Rat) / 90⌉ : Int) : Rat) < (p.minutes : Rat) / 90 + 1 :=
    Int.ceil_lt_add_one _
  linarith

/-- Membership in a ranked position list: exactly the images of the cells
with a positive game count. -/
theorem mem_rankPosition (row : TeamMapD) (e : RankedTeam) :
    e ∈ rankPosition row ↔
      ∃ c ∈ row.map Prod.snd, 0 < c.games ∧
        RankedTeam.mk c.name c.pointsAllowed c.games
          (toFixed2 ((c.pointsAllowed : Rat) / (c.games : Rat))) = e := by
  unfold rankPosition
  rw [List.mem_insertionSort]
  constructor
  · intro h
    obtain ⟨c, hcmem, hce⟩ := List.mem_map.mp h
    rw [List.mem_filter] at hcmem
    exact ⟨c, hcmem.1, by simpa using hcmem.2, hce⟩
  · rintro ⟨c, hcmem, hcg, hce⟩
    exact List.mem_map.mpr ⟨c, List.mem_filter.mpr ⟨hcmem, by simpa using hcg⟩, hce⟩

/-! ### Claim theorems -/

/-- C10: for every player with at least 450 minutes, the average minutes per
game `minutes / max(1, ceil(minutes / 90))` is at least 60, and the
regular-starter predicate is equivalent to
`minutes ≥ 450 AND (form ≠ 0 OR minutes ≥ 1800)`. -/
theorem isRegularStarter_simplified (p : PlayerElem) :
    (450 ≤ p.minutes →
      (60 : Rat) ≤ (p.minutes : Rat) / ((max 1 ⌈((p.minutes : Rat) / 90)⌉ : Int) : Rat)) ∧
    (isRegularStarter p = true ↔ (450 ≤ p.minutes ∧ (p.form ≠ 0 ∨ 1800 ≤ p.minutes))) := by
  constructor
  · exact avgMinutes_ge_sixty p
  · unfold isRegularStarter
    by_cases hm : p.minutes < 450
    · simp [hm]
    · have h450 : 450 ≤ p.minutes := by omega
      have h60 := avgMinutes_ge_sixty p h450
      simp only [hm, if_false, Bool.and_eq_true, Bool.or_eq_true, decide_eq_true_eq,
        ge_iff_le]
      constructor
      · intro h
        exact ⟨h450, h.2⟩
      · intro h
        exact ⟨h60, h.2⟩

/-- C10 witness: the theorem applied to the synthetic forward with 450
minutes and nonzero form. -/
theorem isRegularStarter_simplified_witness :
    ((60 : Rat) ≤ (fwdW.minutes : Rat) /
      ((max 1 ⌈((fwdW.minutes : Rat) / 90)⌉ : Int) : Rat)) ∧
    (isRegularStarter fwdW = true ↔
      (450 ≤ fwdW.minutes ∧ (fwdW.form ≠ 0 ∨ 1800 ≤ fwdW.minutes))) :=
  ⟨(isRegularStarter_simplified fwdW).1 (by decide),
   (isRegularStarter_simplified fwdW).2⟩

/-- C3: the vulnerability formula is monotone non-decreasing in the average
points allowed, and every score the scorer returns lies in [0, 10]. -/
theorem vulnerability_monotone_bounded :
    (∀ x y : Rat, y < x → vulnFormula y ≤ vulnFormula x) ∧
    (∀ dr teams tid pos q, getVulnerabilityScore dr teams tid pos = Except.ok q →
      0 ≤ q ∧ q ≤ 10) := by
  constructor
  · intro x y h
    unfold vulnFormula
    have hmul : y * (5/2) ≤ x * (5/2) :=
      mul_le_mul_of_nonneg_right h.le (by norm_num)
    exact min_le_min le_rfl (max_le_max le_rfl hmul)
  · intro dr teams tid pos q h
    unfold getVulnerabilityScore at h
    split at h
    · simp at h
    · split at h
      · injection h with hq
        rw [← hq]
        norm_num
      · injection h with hq
        rw [← hq]
        unfold vulnFormula
        constructor
        · exact le_min (by norm_num) (le_max_left 0 _)
        · exact min_le_left 10 _

/-- C3 witness: monotonicity at 1 < 2 and bounds at the concrete score of
TeamX against forwards. -/
theorem vulnerability_monotone_bounded_witness :
    vulnFormula 1 ≤ vulnFormula 2 ∧ (0 ≤ (10 : Rat) ∧ (10 : Rat) ≤ 10) :=
  ⟨vulnerability_monotone_bounded.1 2 1 (by norm_num),
   vulnerability_monotone_bounded.2 drW teamsW 7 4 10
     (by norm_num [getVulnerabilityScore, positionList, drW, teamsW,
       teamEntryMatches, List.find?, vulnFormula])⟩

/-- C1 counterexample: the two-tier comparator is not transitive (the entries
with totals 1, 3/5, 1/5 and forms 0, 5, 10 form a strict preference cycle),
so it is not a total order. -/
theorem recCompare_not_total_order :
    ¬ (∀ a b c : PlayerAnalysis,
        recCompare a b < 0 → recCompare b c < 0 → recCompare a c < 0) := by
  intro h
  have h25 : |(2/5 : Rat)| = 2/5 := by norm_num
  have h45 : |(4/5 : Rat)| = 4/5 := by norm_num
  have h1 : recCompare pRecB pRecA < 0 := by
    norm_num [recCompare, pRecA, pRecB, h25]
  have h2 : recCompare pRecC pRecB < 0 := by
    norm_num [recCompare, pRecB, pRecC, h25]
  have h3 := h pRecC pRecB pRecA h2 h1
  have h4 : ¬ recCompare pRecC pRecA < 0 := by
    norm_num [recCompare, pRecA, pRecC, h45]
  exact h4 h3

/-- C1 amended: the comparator is a deterministic pure function of the two
entries' (total vulnerability, form) keys, antisymmetric, and zero on entries
equal under both keys (so a stable sort keeps their input order); it is not
transitive, hence not a total order. -/
theorem recCompare_deterministic_antisymm :
    (∀ a b a2 b2 : PlayerAnalysis,
        a.totalVulnerabilityScore = a2.totalVulnerabilityScore → a.form = a2.form →
        b.totalVulnerabilityScore = b2.totalVulnerabilityScore → b.form = b2.form →
        recCompare a b = recCompare a2 b2) ∧
    (∀ a b : PlayerAnalysis, recCompare a b = -recCompare b a) ∧
    (∀ a b : PlayerAnalysis,
        a.totalVulnerabilityScore = b.totalVulnerabilityScore → a.form = b.form →
        recCompare a b = 0) := by
  refine ⟨?_, ?_, ?_⟩
  · intro a b a2 b2 h1 h2 h3 h4
    simp only [recCompare, h1, h2, h3, h4]
  · intro a b
    simp only [recCompare]
    rw [abs_sub_comm a.totalVulnerabilityScore b.totalVulnerabilityScore]
    split_ifs <;> ring
  · intro a b h1 h2
    unfold recCompare
    rw [h1, h2]
    simp

/-- C1 witness: the amended properties applied at the concrete entries. -/
theorem recCompare_deterministic_antisymm_witness :
    recCompare pRecA pRecB = recCompare pRecA pRecB ∧
    recCompare pRecA pRecB = -recCompare pRecB pRecA ∧
    recCompare pRecA pRecA = 0 :=
  ⟨recCompare_deterministic_antisymm.1 pRecA pRecB pRecA pRecB rfl rfl rfl rfl,
   recCompare_deterministic_antisymm.2.1 pRecA pRecB,
   recCompare_deterministic_antisymm.2.2 pRecA pRecA rfl rfl⟩

theorem foldl_max_init_le (l : List Nat) (a : Nat) : a ≤ l.foldl max a := by
  induction l generalizing a with
  | nil => exact le_refl a
  | cons y ys ih =>
    rw [List.foldl_cons]
    exact le_trans (le_max_left a y) (ih (max a y))

theorem foldl_max_elem_le (l : List Nat) (a : Nat) : ∀ x ∈ l, x ≤ l.foldl max a := by
  induction l generalizing a with
  | nil => intro x hx; simp at hx
  | cons y ys ih =>
    intro x hx
    rw [List.foldl_cons]
    rcases List.mem_cons.mp hx with h | h
    · rw [h]
      exact le_trans (le_max_right a y) (foldl_max_init_le ys (max a y))
    · exact ih (max a y) x h

theorem foldl_max_mem (l : List Nat) (a : Nat) : l.foldl max a = a ∨ l.foldl max a ∈ l := by
  induction l generalizing a with
  | nil => left; rfl
  | cons y ys ih =>
    rw [List.foldl_cons]
    rcases ih (max a y) with h | h
    · rcases max_choice a y with hm | hm
      · left; rw [h, hm]
      · right; rw [h, hm]; exact List.mem_cons_self y ys
    · right; exact List.mem_cons_of_mem y h

/-- C9 counterexample: analyzeTeamPerformance does not guard its average
against a zero player count; a bootstrap with one team and no players yields
an undefined (NaN) averagePoints for that team. -/
theorem team_performance_average_nan :
    (analyzeTeamPerformance [⟨1, "A"⟩] []).map TeamStat.averagePoints = [none] := by
  simp [analyzeTeamPerformance, computeAverages, aggregatePlayers, initTeamStats, jsDiv,
    List.insertionSort, List.orderedInsert]

/-- C9 amended: the per-player average vulnerability and the per-team defense
averages guard their denominators (zero fixtures yields 0; zero-game cells are
filtered out before averaging), but the team-performance average is unguarded
and is NaN for a team with zero players. -/
theorem division_guards :
    (∀ (teams : List TeamElem) (p : PlayerElem) (fx : List FixtureEntry),
      (fx.length > 0 →
        jsDiv (fx.foldl (fun sum f => sum + f.vulnerabilityScore) 0) (fx.length : Rat) =
          some ((fx.foldl (fun sum f => sum + f.vulnerabilityScore) 0) / (fx.length : Rat)) ∧
        (mkAnalysisEntry teams p fx).avgVulnerabilityScore =
          toFixed2 ((fx.foldl (fun sum f => sum + f.vulnerabilityScore) 0) / (fx.length : Rat))) ∧
      (fx.length = 0 →
        (mkAnalysisEntry teams p fx).avgVulnerabilityScore = toFixed2 0)) ∧
    (∀ (row : TeamMapD) (e : RankedTeam), e ∈ rankPosition row →
      0 < e.gamesPlayed ∧
      jsDiv (e.totalPointsAllowed : Rat) (e.gamesPlayed : Rat) =
        some ((e.totalPointsAllowed : Rat) / (e.gamesPlayed : Rat))) := by
  constructor
  · intro teams p fx
    constructor
    · intro hlen
      have hne : ((fx.length : Rat)) ≠ 0 := by
        exact_mod_cast Nat.pos_iff_ne_zero.mp hlen
      constructor
      · simp [jsDiv, hne]
      · simp [mkAnalysisEntry, hlen]
    · intro hlen
      simp [mkAnalysisEntry, hlen]
  · intro row e he
    unfold rankPosition at he
    rw [List.mem_insertionSort] at he
    simp only [List.mem_map, List.mem_filter, decide_eq_true_eq] at he
    obtain ⟨c, ⟨hcmem, hcg⟩, hce⟩ := he
    have hg : 0 < e.gamesPlayed := by rw [← hce]; exact hcg
    refine ⟨hg, ?_⟩
    have hne : ((e.gamesPlayed : Rat)) ≠ 0 := by
      exact_mod_cast Nat.pos_iff_ne_zero.mp hg
    simp [jsDiv, hne]

/-- C9 witness: the guarded divisions applied at a one-fixture list and at the
one-cell defense row. -/
theorem division_guards_witness :
    (jsDiv (fxW.foldl (fun sum f => sum + f.vulnerabilityScore) 0) (fxW.length : Rat) =
      some ((fxW.foldl (fun sum f => sum + f.vulnerabilityScore) 0) / (fxW.length : Rat))) ∧
    (0 < rtW.gamesPlayed ∧
      jsDiv (rtW.totalPointsAllowed : Rat) (rtW.gamesPlayed : Rat) =
        some ((rtW.totalPointsAllowed : Rat) / (rtW.gamesPlayed : Rat))) :=
  ⟨((division_guards.1 teamsW fwdW fxW).1 (by norm_num [fxW])).1,
   division_guards.2 rowW rtW
     (by norm_num [rankPosition, toFixed2, rowW, rtW, List.insertionSort, List.orderedInsert])⟩

/-- C8: the current gameweek is the gameweek of the kickoff-earliest fixture
that is neither started nor finished; when no such fixture exists it is
min(38, maxObservedGameweek + 1) where maxObservedGameweek is the maximum
observed gameweek number. -/
theorem current_gameweek_spec (fixtures : List Fixture) :
    ((∃ f ∈ fixtures, f.finished = false ∧ f.started = false) →
      ∃ f ∈ fixtures, f.finished = false ∧ f.started = false ∧
        (∀ g ∈ fixtures, g.finished = false → g.started = false →
          f.kickoff_time ≤ g.kickoff_time) ∧
        getCurrentGameweek fixtures = f.event.getD 0) ∧
    (fixtures ≠ [] → (∀ f ∈ fixtures, f.finished = true ∨ f.started = true) →
      ∃ M, (∀ f ∈ fixtures, f.event.getD 0 ≤ M) ∧ (∃ f ∈ fixtures, f.event.getD 0 = M) ∧
        getCurrentGameweek fixtures = min 38 (M + 1)) := by
  have hiT : IsTotal Fixture (fun a b => a.kickoff_time ≤ b.kickoff_time) :=
    ⟨fun a b => Nat.le_total a.kickoff_time b.kickoff_time⟩
  have hiR : IsTrans Fixture (fun a b => a.kickoff_time ≤ b.kickoff_time) :=
    ⟨fun a b c => Nat.le_trans⟩
  constructor
  · intro hex
    obtain ⟨f0, hf0mem, hf0f, hf0s⟩ := hex
    have hmemfilt : f0 ∈ fixtures.filter (fun f => f.finished == false && f.started == false) := by
      rw [List.mem_filter]
      exact ⟨hf0mem, by rw [hf0f, hf0s]; rfl⟩
    have hsortmem : f0 ∈
        (fixtures.filter (fun f => f.finished == false && f.started == false)).insertionSort
          (fun a b => a.kickoff_time ≤ b.kickoff_time) := by
      rw [List.mem_insertionSort]
      exact hmemfilt
    cases hcase : (fixtures.filter
        (fun f => f.finished == false && f.started == false)).insertionSort
        (fun a b => a.kickoff_time ≤ b.kickoff_time) with
    | nil => rw [hcase] at hsortmem; simp at hsortmem
    | cons f rest =>
      have hfmem : f ∈ fixtures.filter (fun g => g.finished == false && g.started == false) := by
        rw [← List.mem_insertionSort (fun a b => a.kickoff_time ≤ b.kickoff_time), hcase]
        exact List.mem_cons_self f rest
      rw [List.mem_filter] at hfmem
      have hfb := hfmem.2
      simp only [Bool.and_eq_true, beq_iff_eq] at hfb
      refine ⟨f, hfmem.1, hfb.1, hfb.2, ?_, ?_⟩
      · intro g hg hgf hgs
        have hgfilt : g ∈ fixtures.filter (fun f => f.finished == false && f.started == false) := by
          rw [List.mem_filter]
          exact ⟨hg, by rw [hgf, hgs]; rfl⟩
        have hgsort : g ∈ f :: rest := by
          rw [← hcase, List.mem_insertionSort]
          exact hgfilt
        have hsorted := List.sorted_insertionSort
          (fun a b => a.kickoff_time ≤ b.kickoff_time)
          (fixtures.filter (fun f => f.finished == false && f.started == false))
        rw [hcase, List.sorted_cons] at hsorted
        rcases List.mem_cons.mp hgsort with h | h
        · rw [h]
        · exact hsorted.1 g h
      · unfold getCurrentGameweek
        rw [hcase]
  · intro hne hall
    have hfilt : fixtures.filter (fun f => f.finished == false && f.started == false) = [] := by
      rw [List.filter_eq_nil_iff]
      intro f hf
      rcases hall f hf with h | h <;> simp [h]
    refine ⟨maxObservedGameweek fixtures, ?_, ?_, ?_⟩
    · intro f hf
      exact foldl_max_elem_le _ 0 (f.event.getD 0)
        (List.mem_map.mpr ⟨f, hf, rfl⟩)
    · rcases foldl_max_mem (fixtures.map (fun f => f.event.getD 0)) 0 with h | h
      · cases fixtures with
        | nil => exact absurd rfl hne
        | cons f rest =>
          refine ⟨f, List.mem_cons_self f rest, ?_⟩
          have hle : f.event.getD 0 ≤ maxObservedGameweek (f :: rest) :=
            foldl_max_elem_le _ 0 (f.event.getD 0)
              (List.mem_map.mpr ⟨f, List.mem_cons_self f rest, rfl⟩)
          have : maxObservedGameweek (f :: rest) = 0 := h
          omega
      · obtain ⟨f, hfmem, hfeq⟩ := List.mem_map.mp h
        exact ⟨f, hfmem, hfeq⟩
    · unfold getCurrentGameweek
      rw [hfilt]
      rfl

/-- C8 witness: for the all-done fixture list with max observed gameweek 38,
the fallback resolves the current gameweek to min(38, 39) = 38. -/
theorem current_gameweek_spec_witness :
    ∃ M, (∀ f ∈ fixturesAllDone, f.event.getD 0 ≤ M) ∧
      (∃ f ∈ fixturesAllDone, f.event.getD 0 = M) ∧
      getCurrentGameweek fixturesAllDone = min 38 (M + 1) :=
  (current_gameweek_spec fixturesAllDone).2 (by simp [fixturesAllDone]) (by decide)

/-- C4: one gameweek record contributes its points and one game to exactly
the cell (player position, opponent team), and contributes exactly when the
player played minutes and the opponent maps to an existing cell; unknown
opponents are skipped without error, and a missing or empty history leaves
the table untouched. -/
theorem defense_record_contribution (pos : Nat) (stats : DefStats) (row : TeamMapD)
    (hrow : lookupA pos stats = some row) (h0 : lookupA 0 row = none) (gw : GwRecord) :
    (∃ s2, recordStep pos stats gw = Except.ok s2 ∧
      ∀ pos2 tid, cellAt s2 pos2 tid =
        if pos2 = pos ∧ tid = gw.opponent_team ∧ 0 < gw.minutes ∧
            (cellAt stats pos gw.opponent_team).isSome = true
        then (cellAt stats pos2 tid).map
          (fun c => ⟨c.name, c.pointsAllowed + gw.total_points, c.games + 1⟩)
        else cellAt stats pos2 tid) ∧
    (∀ (allPlayers : List PlayerElem) (pid : Nat),
      processPlayerData allPlayers pid none stats = Except.ok stats ∧
      processPlayerData allPlayers pid (some []) stats = Except.ok stats) := by
  constructor
  · by_cases hmin : 0 < gw.minutes
    · by_cases hopp : gw.opponent_team = 0
      · refine ⟨stats, ?_, ?_⟩
        · simp [recordStep, hmin, hopp]
        · intro pos2 tid
          rw [if_neg]
          intro hcond
          have hsome := hcond.2.2.2
          rw [hopp] at hsome
          simp [cellAt, hrow, h0] at hsome
      · cases hcell : lookupA gw.opponent_team row with
        | none =>
          refine ⟨stats, ?_, ?_⟩
          · simp [recordStep, hmin, hopp, hrow, hcell]
          · intro pos2 tid
            rw [if_neg]
            intro hcond
            have hsome := hcond.2.2.2
            simp [cellAt, hrow, hcell] at hsome
        | some c =>
          refine ⟨updateA pos (updateA gw.opponent_team
            (fun d => ⟨d.name, d.pointsAllowed + gw.total_points, d.games + 1⟩)) stats,
            ?_, ?_⟩
          · simp [recordStep, hmin, hopp, hrow, hcell]
          · intro pos2 tid
            by_cases hp2 : pos2 = pos
            · subst hp2
              by_cases ht : tid = gw.opponent_team
              · subst ht
                rw [if_pos ⟨rfl, rfl, hmin, by simp [cellAt, hrow, hcell]⟩]
                simp [cellAt, hrow, lookupA_updateA_self, hcell]
              · rw [if_neg (fun hcond => ht hcond.2.1)]
                simp [cellAt, hrow, lookupA_updateA_self, lookupA_updateA_ne ht]
            · rw [if_neg (fun hcond => hp2 hcond.1)]
              simp [cellAt, lookupA_updateA_ne hp2]
    · refine ⟨stats, ?_, ?_⟩
      · simp [recordStep, hmin]
      · intro pos2 tid
        rw [if_neg (fun hcond => hmin hcond.2.2.1)]
  · intro allPlayers pid
    constructor
    · rcases hfind : allPlayers.find? (fun p => p.id == pid) with _ | pi <;>
        simp [processPlayerData, hfind]
    · rcases hfind : allPlayers.find? (fun p => p.id == pid) with _ | pi <;>
        simp [processPlayerData, hfind]

/-- C4 witness: the characterization applied to the freshly initialized table
and the synthetic record (90 minutes, opponent 7, 8 points). -/
theorem defense_record_contribution_witness :
    (∃ s2, recordStep 4 (initDefStats teamsW) ⟨1, 7, 90, 8⟩ = Except.ok s2 ∧
      ∀ pos2 tid, cellAt s2 pos2 tid =
        if pos2 = 4 ∧ tid = (⟨1, 7, 90, 8⟩ : GwRecord).opponent_team ∧
            0 < (⟨1, 7, 90, 8⟩ : GwRecord).minutes ∧
            (cellAt (initDefStats teamsW) 4
              (⟨1, 7, 90, 8⟩ : GwRecord).opponent_team).isSome = true
        then (cellAt (initDefStats teamsW) pos2 tid).map
          (fun c => ⟨c.name, c.pointsAllowed + (⟨1, 7, 90, 8⟩ : GwRecord).total_points,
            c.games + 1⟩)
        else cellAt (initDefStats teamsW) pos2 tid) ∧
    (∀ (allPlayers : List PlayerElem) (pid : Nat),
      processPlayerData allPlayers pid none (initDefStats teamsW) =
        Except.ok (initDefStats teamsW) ∧
      processPlayerData allPlayers pid (some []) (initDefStats teamsW) =
        Except.ok (initDefStats teamsW)) :=
  defense_record_contribution 4 (initDefStats teamsW) [(7, ⟨"TeamX", 0, 0⟩)]
    (by rfl) (by rfl) ⟨1, 7, 90, 8⟩

/-- C5: the ranked output for a position contains exactly the cells with a
positive game count, carrying the two-decimal average pointsAllowed / games,
sorted descending by total points allowed; aggregating the synthetic forward
with one record (90 minutes, opponent TeamX, 8 points) yields the cell
(8 points, 1 game) and average 8.00. -/
theorem calculate_results_spec :
    (∀ (row : TeamMapD) (e : RankedTeam),
      (e ∈ rankPosition row ↔
        ∃ c ∈ row.map Prod.snd, 0 < c.games ∧
          RankedTeam.mk c.name c.pointsAllowed c.games
            (toFixed2 ((c.pointsAllowed : Rat) / (c.games : Rat))) = e)) ∧
    (∀ row : TeamMapD,
      List.Pairwise (fun a b : RankedTeam => b.totalPointsAllowed ≤ a.totalPointsAllowed)
        (rankPosition row)) ∧
    (∃ s2, processPlayerData [fwdW] 1 (some histW) (initDefStats teamsW) = Except.ok s2 ∧
      cellAt s2 4 7 = some ⟨"TeamX", 8, 1⟩ ∧
      (calculateResults s2).forwards = [⟨"TeamX", 8, 1, 8⟩]) := by
  refine ⟨?_, ?_, ?_⟩
  · intro row e
    exact mem_rankPosition row e
  · intro row
    haveI : IsTotal RankedTeam
        (fun a b => b.totalPointsAllowed ≤ a.totalPointsAllowed) :=
      ⟨fun a b => Int.le_total b.totalPointsAllowed a.totalPointsAllowed⟩
    haveI : IsTrans RankedTeam
        (fun a b => b.totalPointsAllowed ≤ a.totalPointsAllowed) :=
      ⟨fun a b c hab hbc => le_trans hbc hab⟩
    exact List.sorted_insertionSort _ _
  · refine ⟨[(1, [(7, ⟨"TeamX", 0, 0⟩)]), (2, [(7, ⟨"TeamX", 0, 0⟩)]),
      (3, [(7, ⟨"TeamX", 0, 0⟩)]), (4, [(7, ⟨"TeamX", 8, 1⟩)])], ?_, ?_, ?_⟩
    · rfl
    · rfl
    · norm_num [calculateResults, rankPosition, lookupA, toFixed2,
        List.insertionSort, List.orderedInsert]

/-- C5 witness: the membership characterization and sortedness at the
one-cell row. -/
theorem calculate_results_spec_witness :
    (rtW ∈ rankPosition rowW ↔
      ∃ c ∈ rowW.map Prod.snd, 0 < c.games ∧
        RankedTeam.mk c.name c.pointsAllowed c.games
          (toFixed2 ((c.pointsAllowed : Rat) / (c.games : Rat))) = rtW) ∧
    List.Pairwise (fun a b : RankedTeam => b.totalPointsAllowed ≤ a.totalPointsAllowed)
      (rankPosition rowW) :=
  ⟨calculate_results_spec.1 rowW rtW, calculate_results_spec.2.1 rowW⟩

/-- C2 counterexample: a position id outside 1..4 (here 5) makes the
vulnerability scorer throw a TypeError instead of returning a score, so
"no input makes it raise an error" fails. -/
theorem vulnerability_score_throws :
    getVulnerabilityScore ⟨[], [], [], []⟩ teamsW 7 5 = Except.error "TypeError" := rfl

/-- C2 amended: for every teamId and every position id in 1..4 the scorer
returns without error; it returns 0 when the (teamId, positionId) cell is
absent from the defense table or has zero counted games, and otherwise
clamp(avgPointsAllowed * 2.5, 0, 10) on the cell's two-decimal average;
a position id outside 1..4 faults. Hypotheses: the ranked names resolve
consistently through the bootstrap teams and the row's keys are unique, as
initialize guarantees. -/
theorem vulnerability_score_spec (stats : DefStats) (teams : List TeamElem)
    (tid pos : Nat) (row : TeamMapD)
    (hpos : pos = 1 ∨ pos = 2 ∨ pos = 3 ∨ pos = 4)
    (hrow : lookupA pos stats = some row)
    (hkeys : (row.map Prod.fst).Nodup)
    (hcons : ∀ pr ∈ row, ∀ bt : TeamElem,
      teams.find? (fun t => t.name == pr.2.name) = some bt → bt.id = tid →
        pr.1 = tid) :
    ∃ q, getVulnerabilityScore (calculateResults stats) teams tid pos = Except.ok q ∧
      ((cellAt stats pos tid = none ∨
          (∃ c, cellAt stats pos tid = some c ∧ c.games = 0)) → q = 0) ∧
      (∀ c, cellAt stats pos tid = some c → 0 < c.games →
        ∀ bt : TeamElem, teams.find? (fun t => t.name == c.name) = some bt →
          bt.id = tid →
            q = vulnFormula (toFixed2 ((c.pointsAllowed : Rat) / (c.games : Rat)))) := by
  have hpl : positionList (calculateResults stats) pos = some (rankPosition row) := by
    rcases hpos with h | h | h | h <;> subst h <;>
      simp [positionList, calculateResults, hrow]
  have hcellAt : cellAt stats pos tid = lookupA tid row := by
    simp [cellAt, hrow]
  have hmatch : ∀ e ∈ rankPosition row, teamEntryMatches teams tid e = true →
      ∃ c, lookupA tid row = some c ∧ 0 < c.games ∧
        RankedTeam.mk c.name c.pointsAllowed c.games
          (toFixed2 ((c.pointsAllowed : Rat) / (c.games : Rat))) = e := by
    intro e he hm
    obtain ⟨c, hcmem, hcg, hce⟩ := (mem_rankPosition row e).mp he
    obtain ⟨pr, hpr, hprc⟩ := List.mem_map.mp hcmem
    have hname : e.name = c.name := by rw [← hce]
    unfold teamEntryMatches at hm
    rcases hfind2 : teams.find? (fun t => t.name == e.name) with _ | bt
    · rw [hfind2] at hm
      simp at hm
    · rw [hfind2] at hm
      have hbtid : bt.id = tid := by simpa using hm
      have hfr : teams.find? (fun t => t.name == pr.2.name) = some bt := by
        rw [hprc, ← hname]
        exact hfind2
      have hptid : pr.1 = tid := hcons pr hpr bt hfr hbtid
      have hprmem : (tid, c) ∈ row := by
        rw [← hptid, ← hprc]
        exact hpr
      exact ⟨c, mem_lookupA hkeys hprmem, hcg, hce⟩
  cases hfind : (rankPosition row).find? (teamEntryMatches teams tid) with
  | none =>
    refine ⟨0, ?_, fun _ => rfl, ?_⟩
    · simp [getVulnerabilityScore, hpl, hfind]
    · intro c hc hg bt hbt hbtid
      exfalso
      have hmem : RankedTeam.mk c.name c.pointsAllowed c.games
          (toFixed2 ((c.pointsAllowed : Rat) / (c.games : Rat))) ∈ rankPosition row := by
        rw [mem_rankPosition]
        refine ⟨c, ?_, hg, rfl⟩
        rw [hcellAt] at hc
        exact List.mem_map.mpr ⟨(tid, c), lookupA_mem hc, rfl⟩
      exact List.find?_eq_none.mp hfind _ hmem
        (by simp [teamEntryMatches, hbt, hbtid])
  | some td =>
    have htd := List.find?_some hfind
    have htdmem := List.mem_of_find?_eq_some hfind
    obtain ⟨c2, hlook2, hg2, hce2⟩ := hmatch td htdmem htd
    refine ⟨vulnFormula td.avgPointsAllowedPerGame, ?_, ?_, ?_⟩
    · simp [getVulnerabilityScore, hpl, hfind]
    · intro habs
      exfalso
      rcases habs with habs | ⟨c, hc, hcg⟩
      · rw [hcellAt] at habs
        rw [habs] at hlook2
        exact Option.noConfusion hlook2
      · rw [hcellAt] at hc
        rw [hc] at hlook2
        have hcc : c = c2 := Option.some.inj hlook2
        rw [hcc] at hcg
        omega
    · intro c hc hg bt hbt hbtid
      rw [hcellAt] at hc
      rw [hc] at hlook2
      have hcc : c = c2 := Option.some.inj hlook2
      subst hcc
      rw [← hce2]

/-- C2 witness: the spec applied to the processed defense table, TeamX
(id 7), and the forwards position. -/
theorem vulnerability_score_spec_witness :
    ∃ q, getVulnerabilityScore (calculateResults statsW1) teamsW 7 4 = Except.ok q ∧
      ((cellAt statsW1 4 7 = none ∨
          (∃ c, cellAt statsW1 4 7 = some c ∧ c.games = 0)) → q = 0) ∧
      (∀ c, cellAt statsW1 4 7 = some c → 0 < c.games →
        ∀ bt : TeamElem, teamsW.find? (fun t => t.name == c.name) = some bt →
          bt.id = 7 →
            q = vulnFormula (toFixed2 ((c.pointsAllowed : Rat) / (c.games : Rat)))) :=
  vulnerability_score_spec statsW1 teamsW 7 4 [(7, ⟨"TeamX", 8, 1⟩)]
    (by omega) rfl (by decide)
    (by
      intro pr hpr bt hbt hbtid
      rw [List.mem_singleton] at hpr
      subst hpr
      rfl)

theorem getVulnerabilityScore_ok (dr : DefenseResults) (teams : List TeamElem)
    (tid pos : Nat) (hpos : pos = 1 ∨ pos = 2 ∨ pos = 3 ∨ pos = 4) :
    ∃ q, getVulnerabilityScore dr teams tid pos = Except.ok q := by
  have hex : ∃ pd, positionList dr pos = some pd := by
    rcases hpos with h | h | h | h <;> subst h <;> exact ⟨_, rfl⟩
  obtain ⟨pd, hpd⟩ := hex
  cases hf : pd.find? (teamEntryMatches teams tid) with
  | none => exact ⟨0, by simp [getVulnerabilityScore, hpd, hf]⟩
  | some td =>
    exact ⟨vulnFormula td.avgPointsAllowedPerGame,
      by simp [getVulnerabilityScore, hpd, hf]⟩

theorem fixtureStep_ok (dr : DefenseResults) (teams : List TeamElem)
    (player : PlayerElem) (fixture : Fixture)
    (hpos : player.element_type = 1 ∨ player.element_type = 2 ∨
      player.element_type = 3 ∨ player.element_type = 4) :
    ∃ y, fixtureStep dr teams player fixture = Except.ok y := by
  cases hstep : fixtureStep dr teams player fixture with
  | ok y => exact ⟨y, rfl⟩
  | error err =>
    exfalso
    obtain ⟨q, hq⟩ := getVulnerabilityScore_ok dr teams
      (if (fixture.team_h == player.team) = true then fixture.team_a else fixture.team_h)
      player.element_type hpos
    simp only [fixtureStep] at hstep
    rw [hq] at hstep
    exact Except.noConfusion hstep

theorem fixtureStep_fields (dr : DefenseResults) (teams : List TeamElem)
    (player : PlayerElem) (fixture : Fixture) (e : FixtureEntry)
    (hstep : fixtureStep dr teams player fixture = Except.ok e) :
    e.gameweek = fixture.event ∧
    e.isHome = (fixture.team_h == player.team) ∧
    e.opponentId = (if (fixture.team_h == player.team) = true then fixture.team_a
      else fixture.team_h) ∧
    e.difficulty = (if (fixture.team_h == player.team) = true then fixture.team_h_difficulty
      else fixture.team_a_difficulty) ∧
    getVulnerabilityScore dr teams e.opponentId player.element_type =
      Except.ok e.vulnerabilityScore := by
  simp only [fixtureStep] at hstep
  cases hq : getVulnerabilityScore dr teams
      (if (fixture.team_h == player.team) = true then fixture.team_a else fixture.team_h)
      player.element_type with
  | error err =>
    rw [hq] at hstep
    exact absurd hstep (by simp)
  | ok v =>
    rw [hq] at hstep
    injection hstep with he
    subst he
    exact ⟨rfl, rfl, rfl, rfl, hq⟩

theorem fixtureQualifies_iff (N cur team : Nat) (f : Fixture) :
    fixtureQualifies ((List.range N).map (fun i => cur + i)) team f = true ↔
      ((∃ i, i < N ∧ f.event = some (cur + i)) ∧
       (f.team_a = team ∨ f.team_h = team) ∧ f.finished = false) := by
  unfold fixtureQualifies
  cases hev : f.event with
  | none => simp [hev]
  | some ev =>
    simp only [hev, Bool.and_eq_true, Bool.or_eq_true, beq_iff_eq,
      Bool.not_eq_true', Option.some.injEq]
    constructor
    · rintro ⟨⟨hcont, hteam⟩, hfin⟩
      have hmem : ev ∈ (List.range N).map (fun i => cur + i) := by
        simpa [List.contains, List.elem_iff] using hcont
      obtain ⟨i, hi, hie⟩ := List.mem_map.mp hmem
      rw [List.mem_range] at hi
      exact ⟨⟨i, hi, hie.symm⟩, hteam, hfin⟩
    · rintro ⟨⟨i, hi, hie⟩, hteam, hfin⟩
      refine ⟨⟨?_, hteam⟩, hfin⟩
      have hmem : ev ∈ (List.range N).map (fun i => cur + i) :=
        List.mem_map.mpr ⟨i, List.mem_range.mpr hi, hie.symm⟩
      simpa [List.contains, List.elem_iff] using hmem

/-- C6: the upcoming-fixture list for a player contains exactly the fixtures
whose gameweek lies in the horizon window, with the player's team on either
side, and not finished; each entry records the gameweek, the home/away flag,
the opponent, the difficulty of the player's side, and the opponent's
vulnerability score against the player's position. -/
theorem player_upcoming_fixtures_spec (dr : DefenseResults) (teams : List TeamElem)
    (fixtures : List Fixture) (allPlayers : List PlayerElem)
    (playerId gameweeksAhead : Nat) (player : PlayerElem)
    (hfind : allPlayers.find? (fun p => p.id == playerId) = some player)
    (hpos : player.element_type = 1 ∨ player.element_type = 2 ∨
      player.element_type = 3 ∨ player.element_type = 4) :
    ∃ entries, getPlayerUpcomingFixtures dr teams fixtures allPlayers playerId
        gameweeksAhead = Except.ok entries ∧
      (∀ e, e ∈ entries ↔ ∃ f ∈ fixtures,
        (∃ i, i < gameweeksAhead ∧
          f.event = some (getCurrentGameweek fixtures + i)) ∧
        (f.team_a = player.team ∨ f.team_h = player.team) ∧
        f.finished = false ∧
        fixtureStep dr teams player f = Except.ok e) ∧
      (∀ e ∈ entries, ∃ f ∈ fixtures,
        (∃ i, i < gameweeksAhead ∧
          f.event = some (getCurrentGameweek fixtures + i)) ∧
        (f.team_a = player.team ∨ f.team_h = player.team) ∧
        f.finished = false ∧
        e.gameweek = f.event ∧
        e.isHome = (f.team_h == player.team) ∧
        e.opponentId = (if (f.team_h == player.team) = true then f.team_a else f.team_h) ∧
        e.difficulty = (if (f.team_h == player.team) = true then f.team_h_difficulty
          else f.team_a_difficulty) ∧
        getVulnerabilityScore dr teams e.opponentId player.element_type =
          Except.ok e.vulnerabilityScore) := by
  have hstepok : ∀ f ∈ fixtures.filter
      (fixtureQualifies ((List.range gameweeksAhead).map
        (fun i => getCurrentGameweek fixtures + i)) player.team),
      fixtureStep dr teams player f =
        Except.ok (okD (fixtureStep dr teams player f) ⟨none, "", 0, false, 0, 0⟩) := by
    intro f _
    obtain ⟨y, hy⟩ := fixtureStep_ok dr teams player f hpos
    rw [hy]
    rfl
  have hmap := mapExcept_ok_of_forall hstepok
  have hmem : ∀ e, (e ∈ ((fixtures.filter
      (fixtureQualifies ((List.range gameweeksAhead).map
        (fun i => getCurrentGameweek fixtures + i)) player.team)).map
      (fun f => okD (fixtureStep dr teams player f)
        ⟨none, "", 0, false, 0, 0⟩)).insertionSort
      (fun a b => a.gameweek.getD 0 ≤ b.gameweek.getD 0) ↔
      ∃ f ∈ fixtures,
        (∃ i, i < gameweeksAhead ∧
          f.event = some (getCurrentGameweek fixtures + i)) ∧
        (f.team_a = player.team ∨ f.team_h = player.team) ∧
        f.finished = false ∧
        fixtureStep dr teams player f = Except.ok e) := by
    intro e
    rw [List.mem_insertionSort]
    constructor
    · intro he
      obtain ⟨f, hfQ, hge⟩ := List.mem_map.mp he
      have hq := List.mem_filter.mp hfQ
      have hdecode := (fixtureQualifies_iff gameweeksAhead
        (getCurrentGameweek fixtures) player.team f).mp hq.2
      refine ⟨f, hq.1, hdecode.1, hdecode.2.1, hdecode.2.2, ?_⟩
      rw [hstepok f hfQ, hge]
    · rintro ⟨f, hfmem, hwin, hteam, hfin, hstep⟩
      have hqual := (fixtureQualifies_iff gameweeksAhead
        (getCurrentGameweek fixtures) player.team f).mpr ⟨hwin, hteam, hfin⟩
      have hfQ := List.mem_filter.mpr ⟨hfmem, hqual⟩
      refine List.mem_map.mpr ⟨f, hfQ, ?_⟩
      rw [hstep]
      rfl
  refine ⟨_, ?_, hmem, ?_⟩
  · simp [getPlayerUpcomingFixtures, hfind, hmap]
  · intro e he
    obtain ⟨f, hfmem, hwin, hteam, hfin, hstep⟩ := (hmem e).mp he
    have hfl := fixtureStep_fields dr teams player f e hstep
    exact ⟨f, hfmem, hwin, hteam, hfin, hfl.1, hfl.2.1, hfl.2.2.1,
      hfl.2.2.2.1, hfl.2.2.2.2⟩

/-- C6 witness: the fixture-window characterization applied to the concrete
open fixture list and the available forward on team 1. -/
theorem player_upcoming_fixtures_spec_witness :
    ∃ entries, getPlayerUpcomingFixtures drW teamsW fixturesOpen [playerW] 2 2 =
        Except.ok entries ∧
      (∀ e, e ∈ entries ↔ ∃ f ∈ fixturesOpen,
        (∃ i, i < 2 ∧ f.event = some (getCurrentGameweek fixturesOpen + i)) ∧
        (f.team_a = playerW.team ∨ f.team_h = playerW.team) ∧
        f.finished = false ∧
        fixtureStep drW teamsW playerW f = Except.ok e) ∧
      (∀ e ∈ entries, ∃ f ∈ fixturesOpen,
        (∃ i, i < 2 ∧ f.event = some (getCurrentGameweek fixturesOpen + i)) ∧
        (f.team_a = playerW.team ∨ f.team_h = playerW.team) ∧
        f.finished = false ∧
        e.gameweek = f.event ∧
        e.isHome = (f.team_h == playerW.team) ∧
        e.opponentId = (if (f.team_h == playerW.team) = true then f.team_a else f.team_h) ∧
        e.difficulty = (if (f.team_h == playerW.team) = true then f.team_h_difficulty
          else f.team_a_difficulty) ∧
        getVulnerabilityScore drW teamsW e.opponentId playerW.element_type =
          Except.ok e.vulnerabilityScore) :=
  player_upcoming_fixtures_spec drW teamsW fixturesOpen [playerW] 2 2 playerW rfl
    (Or.inr (Or.inr (Or.inr rfl)))

theorem mem_sortRecs (l : List PlayerAnalysis) (e : PlayerAnalysis) :
    e ∈ sortRecs l ↔ e ∈ l := by
  unfold sortRecs
  exact List.mem_insertionSort _

theorem getPlayerUpcomingFixtures_ok (dr : DefenseResults) (teams : List TeamElem)
    (fixtures : List Fixture) (allPlayers : List PlayerElem) (pid N : Nat)
    (hall : ∀ p ∈ allPlayers, p.element_type = 1 ∨ p.element_type = 2 ∨
      p.element_type = 3 ∨ p.element_type = 4) :
    ∃ fx, getPlayerUpcomingFixtures dr teams fixtures allPlayers pid N =
      Except.ok fx := by
  cases hout : getPlayerUpcomingFixtures dr teams fixtures allPlayers pid N with
  | ok fx => exact ⟨fx, rfl⟩
  | error err =>
    exfalso
    cases hfind : allPlayers.find? (fun p => p.id == pid) with
    | none =>
      simp only [getPlayerUpcomingFixtures, hfind] at hout
      exact Except.noConfusion hout
    | some player =>
      have hpos := hall player (List.mem_of_find?_eq_some hfind)
      have hstepok : ∀ f ∈ fixtures.filter
          (fixtureQualifies ((List.range N).map
            (fun i => getCurrentGameweek fixtures + i)) player.team),
          fixtureStep dr teams player f =
            Except.ok (okD (fixtureStep dr teams player f)
              ⟨none, "", 0, false, 0, 0⟩) := by
        intro f _
        obtain ⟨y, hy⟩ := fixtureStep_ok dr teams player f hpos
        rw [hy]
        rfl
      have hmap := mapExcept_ok_of_forall hstepok
      simp only [getPlayerUpcomingFixtures, hfind] at hout
      rw [hmap] at hout
      exact Except.noConfusion hout

/-- C7: a recommendation horizon considers exactly the players with status
"a" (available) and more than 200 minutes, and a player whose horizon has no
qualifying fixture is excluded from the ranked output entirely. -/
theorem analyze_time_horizon_spec (dr : DefenseResults) (teams : List TeamElem)
    (fixtures : List Fixture) (allPlayers : List PlayerElem) (N : Nat)
    (hall : ∀ p ∈ allPlayers, p.element_type = 1 ∨ p.element_type = 2 ∨
      p.element_type = 3 ∨ p.element_type = 4) :
    ∃ out, analyzeTimeHorizon dr teams fixtures allPlayers N = Except.ok out ∧
      ∀ e, (e ∈ out.goalkeeper ∨ e ∈ out.defender ∨ e ∈ out.midfielder ∨
          e ∈ out.forward) ↔
        ∃ p ∈ allPlayers, p.status = "a" ∧ 200 < p.minutes ∧
          ∃ fx, getPlayerUpcomingFixtures dr teams fixtures allPlayers p.id N =
              Except.ok fx ∧ fx ≠ [] ∧ e = mkAnalysisEntry teams p fx := by
  have hstepok : ∀ p ∈ allPlayers.filter
      (fun p => p.status == "a" && decide (p.minutes > 200)),
      (match getPlayerUpcomingFixtures dr teams fixtures allPlayers p.id N with
       | Except.error e => Except.error e
       | Except.ok fx => Except.ok (mkAnalysisEntry teams p fx)) =
        Except.ok (mkAnalysisEntry teams p
          (okD (getPlayerUpcomingFixtures dr teams fixtures allPlayers p.id N) [])) := by
    intro p _
    obtain ⟨fx, hfx⟩ := getPlayerUpcomingFixtures_ok dr teams fixtures allPlayers
      p.id N hall
    rw [hfx]
    rfl
  have hmap := mapExcept_ok_of_forall hstepok
  have hpa : ∀ e2, e2 ∈ ((allPlayers.filter
      (fun p => p.status == "a" && decide (p.minutes > 200))).map
        (fun p => mkAnalysisEntry teams p
          (okD (getPlayerUpcomingFixtures dr teams fixtures allPlayers p.id N) []))).filter
        (fun e3 => decide (e3.fixturesCount > 0)) ↔
      ∃ p ∈ allPlayers, p.status = "a" ∧ 200 < p.minutes ∧
        ∃ fx, getPlayerUpcomingFixtures dr teams fixtures allPlayers p.id N =
            Except.ok fx ∧ fx ≠ [] ∧ e2 = mkAnalysisEntry teams p fx := by
    intro e2
    rw [List.mem_filter]
    constructor
    · rintro ⟨hmem, hcount⟩
      obtain ⟨p, hpF, hpe⟩ := List.mem_map.mp hmem
      rw [List.mem_filter] at hpF
      obtain ⟨hpall, hpcond⟩ := hpF
      simp only [Bool.and_eq_true, beq_iff_eq, decide_eq_true_eq] at hpcond
      obtain ⟨fx, hfx⟩ := getPlayerUpcomingFixtures_ok dr teams fixtures allPlayers
        p.id N hall
      have hok : okD (getPlayerUpcomingFixtures dr teams fixtures allPlayers p.id N)
          [] = fx := by rw [hfx]; rfl
      rw [hok] at hpe
      have hlen : fx ≠ [] := by
        rw [← hpe] at hcount
        simp only [decide_eq_true_eq] at hcount
        intro hnil
        rw [hnil] at hcount
        simp [mkAnalysisEntry] at hcount
      exact ⟨p, hpall, hpcond.1, hpcond.2, fx, hfx, hlen, hpe.symm⟩
    · rintro ⟨p, hpall, hst, hmin, fx, hfx, hnil, he2⟩
      have hok : okD (getPlayerUpcomingFixtures dr teams fixtures allPlayers p.id N)
          [] = fx := by rw [hfx]; rfl
      constructor
      · refine List.mem_map.mpr ⟨p, ?_, ?_⟩
        · rw [List.mem_filter]
          refine ⟨hpall, ?_⟩
          simp only [Bool.and_eq_true, beq_iff_eq, decide_eq_true_eq]
          exact ⟨hst, hmin⟩
        · rw [hok, ← he2]
      · rw [he2]
        simp only [decide_eq_true_eq, mkAnalysisEntry]
        exact List.length_pos.mpr hnil
  refine ⟨⟨sortRecs ((((allPlayers.filter
      (fun p => p.status == "a" && decide (p.minutes > 200))).map
        (fun p => mkAnalysisEntry teams p
          (okD (getPlayerUpcomingFixtures dr teams fixtures allPlayers p.id N) []))).filter
        (fun e3 => decide (e3.fixturesCount > 0))).filter (fun p => p.positionId == 1)),
    sortRecs ((((allPlayers.filter
      (fun p => p.status == "a" && decide (p.minutes > 200))).map
        (fun p => mkAnalysisEntry teams p
          (okD (getPlayerUpcomingFixtures dr teams fixtures allPlayers p.id N) []))).filter
        (fun e3 => decide (e3.fixturesCount > 0))).filter (fun p => p.positionId == 2)),
    sortRecs ((((allPlayers.filter
      (fun p => p.status == "a" && decide (p.minutes > 200))).map
        (fun p => mkAnalysisEntry teams p
          (okD (getPlayerUpcomingFixtures dr teams fixtures allPlayers p.id N) []))).filter
        (fun e3 => decide (e3.fixturesCount > 0))).filter (fun p => p.positionId == 3)),
    sortRecs ((((allPlayers.filter
      (fun p => p.status == "a" && decide (p.minutes > 200))).map
        (fun p => mkAnalysisEntry teams p
          (okD (getPlayerUpcomingFixtures dr teams fixtures allPlayers p.id N) []))).filter
        (fun e3 => decide (e3.fixturesCount > 0))).filter (fun p => p.positionId == 4))⟩,
    ?_, ?_⟩
  · simp only [analyzeTimeHorizon]
    rw [hmap]
  · intro e
    constructor
    · intro hun
      rcases hun with h | h | h | h <;>
        exact (hpa e).mp (List.mem_filter.mp ((mem_sortRecs _ e).mp h)).1
    · intro hex
      have hePA := (hpa e).mpr hex
      obtain ⟨p, hpall, hst, hmin, fx, hfx, hnil, he2⟩ := hex
      have hposid : e.positionId = p.element_type := by
        rw [he2]
        rfl
      rcases hall p hpall with h | h | h | h
      · exact Or.inl ((mem_sortRecs _ e).mpr (List.mem_filter.mpr
          ⟨hePA, by rw [hposid, h]; rfl⟩))
      · exact Or.inr (Or.inl ((mem_sortRecs _ e).mpr (List.mem_filter.mpr
          ⟨hePA, by rw [hposid, h]; rfl⟩)))
      · exact Or.inr (Or.inr (Or.inl ((mem_sortRecs _ e).mpr (List.mem_filter.mpr
          ⟨hePA, by rw [hposid, h]; rfl⟩))))
      · exact Or.inr (Or.inr (Or.inr ((mem_sortRecs _ e).mpr (List.mem_filter.mpr
          ⟨hePA, by rw [hposid, h]; rfl⟩))))

/-- C7 witness: the eligibility and exclusion characterization applied to the
concrete forward, fixtures and defense table. -/
theorem analyze_time_horizon_spec_witness :
    ∃ out, analyzeTimeHorizon drW teamsW fixturesOpen [playerW] 2 = Except.ok out ∧
      ∀ e, (e ∈ out.goalkeeper ∨ e ∈ out.defender ∨ e ∈ out.midfielder ∨
          e ∈ out.forward) ↔
        ∃ p ∈ [playerW], p.status = "a" ∧ 200 < p.minutes ∧
          ∃ fx, getPlayerUpcomingFixtures drW teamsW fixturesOpen [playerW] p.id 2 =
              Except.ok fx ∧ fx ≠ [] ∧ e = mkAnalysisEntry teamsW p fx :=
  analyze_time_horizon_spec drW teamsW fixturesOpen [playerW] 2
    (by
      intro p hp
      rw [List.mem_singleton] at hp
      subst hp
      exact Or.inr (Or.inr (Or.inr rfl)))
